import Mathlib

/-!
Verification of the tankmonitor telemetry core (src/tanklogger.py and the
alerting / dispatch parts of src/tankmonitor.py) against its specification.

Python floats are modelled as rationals: every constant appearing in the
claims (50.0, 42.0, -2.0, 60, ...) and every arithmetic step they require
(subtraction of such values, division by a nonzero exact value) is exact in
IEEE double precision, so the rational model agrees with the float program
on all inputs considered here.  Python `deque(maxlen=n)` is modelled as a
list that keeps the last `n` appended elements.  `None` becomes `Option`.
-/

namespace TankMonitor

/-- A point on a time series (class `TankLogRecord` in src/tanklogger.py). -/
structure TankLogRecord where
  timestamp : ℚ
  value : ℚ
  deriving DecidableEq

/-- A single data point that causes an alert (class `TankAlert` in
src/tanklogger.py); `delta` is `None` for a level alert. -/
structure TankAlert where
  timestamp : ℚ
  value : ℚ
  delta : Option ℚ
  deriving DecidableEq

/-- `find_delta` from src/tanklogger.py lines 30-50: returns
`(interval, rate of change per minute)` between two log records, or
`(None, None)` when there is no previous record or the interval is zero. -/
def find_delta (record : TankLogRecord) (prev_rec : Option TankLogRecord) :
    Option ℚ × Option ℚ :=
  match prev_rec with
  | none => (none, none)
  | some p =>
    let interval := record.timestamp - p.timestamp
    if interval = 0 then (none, none)
    else (interval, some (60 * (record.value - p.value) / interval))

/-- State of a `TankLogger` (src/tanklogger.py lines 53-65).  `records` is the
`deque(maxlen=max_log_records)` buffer, oldest first. -/
structure TankLogger where
  log_interval : ℚ
  max_log_records : ℕ
  alert_rate_threshold : Option ℚ
  comparator : ℚ → ℚ → Bool
  next_capture : ℚ
  records : List TankLogRecord

/-- `TankLogger.__init__`: `next_capture` starts at 0 and the buffer empty. -/
def TankLogger.init (log_interval : ℚ) (max_log_records : ℕ)
    (alert_rate_threshold : Option ℚ) (comparator : ℚ → ℚ → Bool) : TankLogger :=
  ⟨log_interval, max_log_records, alert_rate_threshold, comparator, 0, []⟩

/-- The default comparator `lambda d, t: d < t` from `TankLogger.__init__`. -/
def defaultComparator : ℚ → ℚ → Bool := fun d t => decide (d < t)

/-- `deque.append` on a deque with `maxlen`: append on the right, dropping
from the left whatever exceeds the bound. -/
def dequeAppend (maxlen : ℕ) (l : List TankLogRecord) (x : TankLogRecord) :
    List TankLogRecord :=
  let l2 := l ++ [x]
  l2.drop (l2.length - maxlen)

/-- `TankLogger.offer` from src/tanklogger.py lines 67-91, returning the
updated logger together with the optional `TankAlert`.  Note the source reads
`prev_rec = self.records[-1] if self.records else None` only after
`self.records.append(tank_log_record)`, so `prev_rec` is the record just
appended (or `None` when `maxlen` is 0 and the deque stays empty). -/
def TankLogger.offer (tl : TankLogger) (tank_log_record : TankLogRecord) :
    TankLogger × Option TankAlert :=
  if tank_log_record.timestamp > tl.next_capture then
    let recs := dequeAppend tl.max_log_records tl.records tank_log_record
    let tl' : TankLogger :=
      { tl with records := recs,
                next_capture := tank_log_record.timestamp + tl.log_interval }
    match recs.getLast? with
    | none => (tl', none)
    | some prev_rec =>
      match find_delta tank_log_record (some prev_rec) with
      | (_, some delta) =>
        match tl.alert_rate_threshold with
        | some threshold =>
          if tl.comparator delta threshold then
            (tl', some ⟨tank_log_record.timestamp, tank_log_record.value, some delta⟩)
          else (tl', none)
        | none => (tl', none)
      | (_, none) => (tl', none)
  else (tl, none)

/-- Offering a whole sequence of records in order, keeping the final state. -/
def TankLogger.runOffers (tl : TankLogger) : List TankLogRecord → TankLogger
  | [] => tl
  | r :: rs => TankLogger.runOffers (tl.offer r).1 rs

/-- Loop body of the `deltas` property (src/tanklogger.py lines 93-115):
walk the records keeping a `prev_rec`; on a truthy interval emit the midpoint
record and advance `prev_rec`, otherwise keep `prev_rec` unchanged. -/
def deltasAux : Option TankLogRecord → List TankLogRecord → List TankLogRecord
  | _, [] => []
  | none, record :: rest => deltasAux (some record) rest
  | some prev_rec, record :: rest =>
    match find_delta record (some prev_rec) with
    | (some interval, some delta) =>
      if interval = 0 then deltasAux (some prev_rec) rest
      else
        ⟨prev_rec.timestamp + (1 / 2) * interval, delta⟩ :: deltasAux (some record) rest
    | _ => deltasAux (some prev_rec) rest

/-- The `deltas` property of `TankLogger`. -/
def TankLogger.deltas (tl : TankLogger) : List TankLogRecord :=
  deltasAux none tl.records

/-! ### Helper lemmas -/

theorem find_delta_self (r : TankLogRecord) : find_delta r (some r) = (none, none) := by
  simp [find_delta]

theorem dequeAppend_getLast (maxlen : ℕ) (l : List TankLogRecord) (x : TankLogRecord) :
    (dequeAppend maxlen l x).getLast? = if maxlen = 0 then none else some x := by
  rcases Nat.eq_zero_or_pos maxlen with h0 | hpos
  · subst h0
    simp [dequeAppend, List.drop_length]
  · have hn : (l ++ [x]).length - maxlen ≤ l.length := by
      simp only [List.length_append, List.length_singleton]
      omega
    have hne : maxlen ≠ 0 := Nat.pos_iff_ne_zero.mp hpos
    simp only [dequeAppend, List.drop_append_of_le_length hn, List.getLast?_concat,
      if_neg hne]

theorem dequeAppend_length (maxlen : ℕ) (l : List TankLogRecord) (x : TankLogRecord) :
    (dequeAppend maxlen l x).length = min (l.length + 1) maxlen := by
  simp only [dequeAppend, List.length_drop, List.length_append, List.length_singleton]
  omega

theorem dequeAppend_full (maxlen : ℕ) (l : List TankLogRecord) (x : TankLogRecord)
    (hfull : l.length = maxlen) (hpos : 0 < maxlen) :
    dequeAppend maxlen l x = l.tail ++ [x] := by
  have h1 : (l ++ [x]).length - maxlen = 1 := by
    simp only [List.length_append, List.length_singleton]
    omega
  have hle : (1 : ℕ) ≤ l.length := by omega
  simp only [dequeAppend, h1, List.drop_append_of_le_length hle, List.drop_one]

theorem dequeAppend_sublist (maxlen : ℕ) (l : List TankLogRecord) (x : TankLogRecord) :
    List.Sublist (dequeAppend maxlen l x) (l ++ [x]) := by
  simp only [dequeAppend]
  exact List.drop_sublist _ _

/-- The state part of `offer`: the buffer and `next_capture` are updated on
acceptance and untouched on rejection, whatever the alert branch does. -/
theorem offer_fst (tl : TankLogger) (r : TankLogRecord) :
    (tl.offer r).1 =
      if r.timestamp > tl.next_capture then
        { tl with records := dequeAppend tl.max_log_records tl.records r,
                  next_capture := r.timestamp + tl.log_interval }
      else tl := by
  unfold TankLogger.offer
  split
  · dsimp only
    split
    · rfl
    · split
      · split
        · split <;> rfl
        · rfl
      · rfl
  · rfl

/-- `max_log_records` is never changed by `offer`. -/
theorem offer_max_log_records (tl : TankLogger) (r : TankLogRecord) :
    ((tl.offer r).1).max_log_records = tl.max_log_records := by
  rw [offer_fst]
  split <;> rfl

theorem runOffers_max_log_records (samples : List TankLogRecord) :
    ∀ tl : TankLogger,
      (TankLogger.runOffers tl samples).max_log_records = tl.max_log_records := by
  induction samples with
  | nil => intro tl; rfl
  | cons r rs ih =>
    intro tl
    rw [TankLogger.runOffers, ih, offer_max_log_records]

theorem offer_length_le (tl : TankLogger) (r : TankLogRecord)
    (hlen : tl.records.length ≤ tl.max_log_records) :
    ((tl.offer r).1).records.length ≤ tl.max_log_records := by
  rw [offer_fst]
  split
  · simp [dequeAppend_length]
  · exact hlen

theorem runOffers_length_le (samples : List TankLogRecord) :
    ∀ tl : TankLogger, tl.records.length ≤ tl.max_log_records →
      (TankLogger.runOffers tl samples).records.length ≤ tl.max_log_records := by
  induction samples with
  | nil => intro tl h; exact h
  | cons r rs ih =>
    intro tl h
    rw [TankLogger.runOffers]
    have h2 := ih (tl.offer r).1 (by rw [offer_max_log_records]; exact offer_length_le tl r h)
    rwa [offer_max_log_records] at h2

/-! ### Claim theorems -/

/-- C5: `find_delta` returns `(none, none)` when there is no previous record or
when the interval `current.timestamp - previous.timestamp` is zero, and
otherwise the pair of the interval and the per-minute rate
`60 * (current.value - previous.value) / interval`; two samples one
cadence-interval `c` apart with value difference `dv` yield rate `60 * dv / c`.
The embedding is a total function, matching the purity claim. -/
theorem find_delta_spec (r : TankLogRecord) :
    find_delta r none = (none, none) ∧
    (∀ p : TankLogRecord, r.timestamp - p.timestamp = 0 →
      find_delta r (some p) = (none, none)) ∧
    (∀ p : TankLogRecord, r.timestamp - p.timestamp ≠ 0 →
      find_delta r (some p) =
        (some (r.timestamp - p.timestamp),
         some (60 * (r.value - p.value) / (r.timestamp - p.timestamp)))) ∧
    (∀ t v c dv : ℚ, c ≠ 0 →
      find_delta ⟨t + c, v + dv⟩ (some ⟨t, v⟩) = (some c, some (60 * dv / c))) := by
  refine ⟨rfl, ?_, ?_, ?_⟩
  · intro p h
    simp [find_delta, h]
  · intro p h
    simp [find_delta, h]
  · intro t v c dv hc
    simp [find_delta, add_sub_cancel_left, hc]

/-- Witness for C5: the rate between (0, 50.0) and (60, 42.0) is -8.0 per
minute over a 60 second interval. -/
theorem find_delta_spec_witness :
    find_delta ⟨(60 : ℚ), 42⟩ (some ⟨0, 50⟩) = (some 60, some (-8)) := by
  have h := (find_delta_spec ⟨(60 : ℚ), 42⟩).2.2.1 ⟨0, 50⟩ (by norm_num)
  rw [h]
  norm_num

/-- C2: `TankLogger.offer` never returns a `TankAlert`, whatever the logger
state and the offered record: the `prev_rec` it compares against is read from
the buffer tail after the new record has been appended, so `find_delta` is
applied to the new record and itself, the interval is zero, the delta is
`none`, and the alert branch is unreachable. -/
theorem offer_never_alerts (tl : TankLogger) (r : TankLogRecord) :
    (tl.offer r).2 = none := by
  unfold TankLogger.offer
  split
  · rcases hLast : (dequeAppend tl.max_log_records tl.records r).getLast? with _ | p
    · simp [hLast]
    · have hp : p = r := by
        have h2 := dequeAppend_getLast tl.max_log_records tl.records r
        rw [hLast] at h2
        by_cases h0 : tl.max_log_records = 0
        · simp [h0] at h2
        · simp only [if_neg h0, Option.some.injEq] at h2
          exact h2
      subst hp
      simp [hLast, find_delta_self]
  · rfl

/-- C1: evaluating the code at the scenario of the claim.  With cadence 60,
rate threshold -2.0 and the default comparator, offering (0, 50.0) and then
(60, 42.0) makes the second offer return `none`, not a `TankAlert`: the first
sample is rejected (its timestamp 0 is not strictly greater than the initial
`next_capture` of 0) and the second is compared against itself after the
append, so no delta is ever computed. -/
theorem rate_alert_scenario_returns_none :
    ((((TankLogger.init 60 1440 (some (-2)) defaultComparator).offer
        ⟨0, 50⟩).1).offer ⟨60, 42⟩).2 = none := by
  with_unfolding_all rfl

/-- Counterexample for C3: after offering the five samples of the scenario to
a logger with capacity 3 and cadence 60, the history is not
`[(65, 80), (130, 70), (200, 60)]` as claimed. -/
theorem capacity_scenario_counterexample :
    (TankLogger.runOffers (TankLogger.init 60 3 none defaultComparator)
      [⟨0, 100⟩, ⟨30, 90⟩, ⟨65, 80⟩, ⟨130, 70⟩, ⟨200, 60⟩]).records ≠
      [⟨65, 80⟩, ⟨130, 70⟩, ⟨200, 60⟩] :=
  of_decide_eq_true (by with_unfolding_all rfl)

/-- C3 amended: with capacity 3 and cadence 60, offering
(0,100), (30,90), (65,80), (130,70), (200,60) leaves the history equal to
`[(30, 90), (130, 70), (200, 60)]`: (0,100) is rejected (0 is not strictly
greater than the initial `next_capture` 0), (30,90) is accepted
(`next_capture` goes to 90), (65,80) is rejected (65 is not greater than 90),
(130,70) is accepted (`next_capture` 190), (200,60) is accepted
(`next_capture` 260); the history never reaches four records, so nothing is
evicted. -/
theorem capacity_scenario_history :
    (TankLogger.runOffers (TankLogger.init 60 3 none defaultComparator)
      [⟨0, 100⟩, ⟨30, 90⟩, ⟨65, 80⟩, ⟨130, 70⟩, ⟨200, 60⟩]).records =
      [⟨30, 90⟩, ⟨130, 70⟩, ⟨200, 60⟩] := by
  with_unfolding_all rfl

/-- C6: the history is bounded by the capacity along every sequence of
offers from the initial state; when an accepted sample arrives with the
history exactly at a positive capacity the oldest record is evicted, so the
new history is the old tail followed by the new record; and the history after
any single offer is an in-order sublist of the old history followed by the
new record, so records are never reordered. -/
theorem history_bounded (li : ℚ) (cap : ℕ) (th : Option ℚ) (cmp : ℚ → ℚ → Bool)
    (samples : List TankLogRecord) (tl : TankLogger) (r : TankLogRecord)
    (hlen : tl.records.length ≤ tl.max_log_records) :
    (TankLogger.runOffers (TankLogger.init li cap th cmp) samples).records.length ≤ cap ∧
    ((tl.offer r).1).records.length ≤ tl.max_log_records ∧
    (r.timestamp > tl.next_capture → tl.records.length = tl.max_log_records →
      0 < tl.max_log_records →
      ((tl.offer r).1).records = tl.records.tail ++ [r]) ∧
    List.Sublist ((tl.offer r).1).records (tl.records ++ [r]) := by
  refine ⟨?_, offer_length_le tl r hlen, ?_, ?_⟩
  · exact runOffers_length_le samples (TankLogger.init li cap th cmp) (by simp [TankLogger.init])
  · intro hacc hfull hpos
    rw [offer_fst, if_pos hacc]
    exact dequeAppend_full tl.max_log_records tl.records r hfull hpos
  · rw [offer_fst]
    split
    · exact dequeAppend_sublist tl.max_log_records tl.records r
    · exact List.sublist_append_left tl.records [r]

/-- Witness for C6 at capacity 2: a full history evicts its oldest record on
the next accepted sample, and a four-sample run from the initial state stays
within capacity 3. -/
theorem history_bounded_witness :
    (TankLogger.runOffers (TankLogger.init 60 3 none defaultComparator)
      [⟨10, 1⟩, ⟨80, 2⟩, ⟨150, 3⟩, ⟨220, 4⟩]).records.length ≤ 3 ∧
    (((TankLogger.mk 60 2 none defaultComparator 90 [⟨10, 1⟩, ⟨80, 2⟩]).offer
        ⟨100, 3⟩).1).records = [⟨80, 2⟩, ⟨100, 3⟩] := by
  have h := history_bounded 60 3 none defaultComparator
    [⟨10, 1⟩, ⟨80, 2⟩, ⟨150, 3⟩, ⟨220, 4⟩]
    (TankLogger.mk 60 2 none defaultComparator 90 [⟨10, 1⟩, ⟨80, 2⟩]) ⟨100, 3⟩
    (by norm_num)
  refine ⟨h.1, ?_⟩
  have h2 := h.2.2.1 (by norm_num) (by norm_num) (by norm_num)
  simpa using h2

/-- C7: a sample whose timestamp is not strictly greater than `next_capture`
is silently dropped: the offer returns the whole logger state unchanged
together with `none`, and offering the same rejected sample any number of
times leaves the logger unchanged. -/
theorem offer_reject_frame (tl : TankLogger) (r : TankLogRecord)
    (h : ¬ r.timestamp > tl.next_capture) :
    tl.offer r = (tl, none) ∧
    ∀ n : ℕ, TankLogger.runOffers tl (List.replicate n r) = tl := by
  have h1 : tl.offer r = (tl, none) := by
    unfold TankLogger.offer
    rw [if_neg h]
  refine ⟨h1, ?_⟩
  intro n
  induction n with
  | zero => rfl
  | succ k ih =>
    rw [List.replicate_succ, TankLogger.runOffers, h1]
    exact ih

/-- Witness for C7: a sample at timestamp 0 offered to a fresh logger (whose
`next_capture` is 0) is dropped, once and four more times. -/
theorem offer_reject_frame_witness :
    (TankLogger.init 60 3 none defaultComparator).offer ⟨0, 5⟩ =
      (TankLogger.init 60 3 none defaultComparator, none) ∧
    TankLogger.runOffers (TankLogger.init 60 3 none defaultComparator)
      (List.replicate 4 ⟨0, 5⟩) = TankLogger.init 60 3 none defaultComparator := by
  have h := offer_reject_frame (TankLogger.init 60 3 none defaultComparator) ⟨0, 5⟩
    (by simp [TankLogger.init])
  exact ⟨h.1, h.2 4⟩

theorem deltasAux_length (l : List TankLogRecord) :
    ∀ prev : Option TankLogRecord, (deltasAux prev l).length ≤ l.length := by
  induction l with
  | nil => intro prev; cases prev <;> simp [deltasAux]
  | cons r rs ih =>
    intro prev
    cases prev with
    | none =>
      simp only [deltasAux, List.length_cons]
      exact (ih (some r)).trans (Nat.le_succ _)
    | some p =>
      simp only [deltasAux]
      split
      · split
        · simp only [List.length_cons]
          exact (ih (some p)).trans (Nat.le_succ _)
        · simp only [List.length_cons]
          exact Nat.succ_le_succ (ih (some r))
      · simp only [List.length_cons]
        exact (ih (some p)).trans (Nat.le_succ _)

theorem deltasAux_mem (l : List TankLogRecord) :
    ∀ p : TankLogRecord,
      List.Chain' (fun a b => a.timestamp < b.timestamp) (p :: l) →
      ∀ d ∈ deltasAux (some p) l,
        ∃ a, a ∈ p :: l ∧ ∃ b, b ∈ p :: l ∧ a.timestamp < b.timestamp ∧
          d.timestamp = a.timestamp + (1 / 2) * (b.timestamp - a.timestamp) ∧
          d.value = 60 * (b.value - a.value) / (b.timestamp - a.timestamp) := by
  induction l with
  | nil =>
    intro p _ d hd
    simp [deltasAux] at hd
  | cons r rs ih =>
    intro p hchain d hd
    have hlt : p.timestamp < r.timestamp := (List.chain'_cons.mp hchain).1
    have hchain2 : List.Chain' (fun a b => a.timestamp < b.timestamp) (r :: rs) :=
      (List.chain'_cons.mp hchain).2
    have hne : r.timestamp - p.timestamp ≠ 0 := sub_ne_zero.mpr (ne_of_gt hlt)
    have hfd : find_delta r (some p) =
        (some (r.timestamp - p.timestamp),
         some (60 * (r.value - p.value) / (r.timestamp - p.timestamp))) := by
      simp [find_delta, hne]
    rw [deltasAux, hfd] at hd
    simp only [if_neg hne] at hd
    rcases List.mem_cons.mp hd with hd1 | hd2
    · refine ⟨p, by simp, r, by simp, hlt, ?_, ?_⟩
      · rw [hd1]
      · rw [hd1]
    · rcases ih r hchain2 d hd2 with ⟨a, ha, b, hb, hab, ht, hv⟩
      exact ⟨a, List.mem_cons_of_mem p ha, b, List.mem_cons_of_mem p hb, hab, ht, hv⟩

/-- C8: over a history of `k` records, `deltas` produces at most `k - 1`
derived records; when the stored timestamps are strictly increasing, each
derived record comes from two stored records, its timestamp is the midpoint
of their timestamps (hence strictly between them) and its value is the
per-minute rate between them.  The embedding is a pure function of the
logger, so the computation never mutates the history and is recomputed on
each call. -/
theorem deltas_spec (tl : TankLogger) :
    tl.deltas.length ≤ tl.records.length - 1 ∧
    (List.Chain' (fun a b => a.timestamp < b.timestamp) tl.records →
      ∀ d ∈ tl.deltas,
        ∃ a, a ∈ tl.records ∧ ∃ b, b ∈ tl.records ∧ a.timestamp < b.timestamp ∧
          d.timestamp = a.timestamp + (1 / 2) * (b.timestamp - a.timestamp) ∧
          a.timestamp < d.timestamp ∧ d.timestamp < b.timestamp ∧
          d.value = 60 * (b.value - a.value) / (b.timestamp - a.timestamp)) := by
  constructor
  · unfold TankLogger.deltas
    cases h : tl.records with
    | nil => simp [deltasAux]
    | cons r rs =>
      simp only [deltasAux, List.length_cons, Nat.add_sub_cancel]
      exact deltasAux_length rs (some r)
  · intro hchain d hd
    unfold TankLogger.deltas at hd
    cases h : tl.records with
    | nil => rw [h] at hd; simp [deltasAux] at hd
    | cons r rs =>
      rw [h] at hd
      rw [h] at hchain
      simp only [deltasAux] at hd
      rcases deltasAux_mem rs r hchain d hd with ⟨a, ha, b, hb, hab, ht, hv⟩
      refine ⟨a, h ▸ ha, b, h ▸ hb, hab, ht, ?_, ?_, hv⟩
      · rw [ht]; nlinarith [hab]
      · rw [ht]; nlinarith [hab]

/-- Witness for C8: a logger holding (0,10), (60,20), (120,5) has at most two
derived records, and the derived record (30, 10) is the midpoint pair of
(0,10) and (60,20) with rate 10 per minute. -/
theorem deltas_spec_witness :
    (TankLogger.mk 60 10 none defaultComparator 180
      [⟨0, 10⟩, ⟨60, 20⟩, ⟨120, 5⟩]).deltas.length ≤
      (TankLogger.mk 60 10 none defaultComparator 180
        [⟨0, 10⟩, ⟨60, 20⟩, ⟨120, 5⟩]).records.length - 1 ∧
    ∃ a, a ∈ (TankLogger.mk 60 10 none defaultComparator 180
        [⟨0, 10⟩, ⟨60, 20⟩, ⟨120, 5⟩]).records ∧
      ∃ b, b ∈ (TankLogger.mk 60 10 none defaultComparator 180
          [⟨0, 10⟩, ⟨60, 20⟩, ⟨120, 5⟩]).records ∧
        a.timestamp < b.timestamp ∧
        (TankLogRecord.mk 30 10).timestamp =
          a.timestamp + (1 / 2) * (b.timestamp - a.timestamp) ∧
        a.timestamp < (TankLogRecord.mk 30 10).timestamp ∧
        (TankLogRecord.mk 30 10).timestamp < b.timestamp ∧
        (TankLogRecord.mk 30 10).value =
          60 * (b.value - a.value) / (b.timestamp - a.timestamp) := by
  have h := deltas_spec (TankLogger.mk 60 10 none defaultComparator 180
    [⟨0, 10⟩, ⟨60, 20⟩, ⟨120, 5⟩])
  refine ⟨h.1, ?_⟩
  refine h.2 ?_ ⟨30, 10⟩ ?_
  · simp only [List.chain'_cons, List.chain'_singleton, and_true]
    norm_num
  · have hdel : (TankLogger.mk 60 10 none defaultComparator 180
        [⟨0, 10⟩, ⟨60, 20⟩, ⟨120, 5⟩]).deltas =
        [⟨30, 10⟩, ⟨90, -15⟩] := by
      with_unfolding_all rfl
    rw [hdel]
    simp

/-! ### AlertMailer (src/tankmonitor.py lines 796-820)

`AlertMailer.offer(category, tank_alert)` reads the clock, and when
`last_alert is None or offer_time - last_alert > EMAIL[period]` it renders
and submits the alert message (the hand-off to the notification sink) and
sets `last_alert = offer_time`; otherwise it does nothing.  The model makes
the class state `last_alert` and the clock explicit parameters; the value
handed to the sink is returned in the first component (`none` = suppressed).
The cooldown check uses only the clock, never the category. -/

namespace AlertMailer

def offer (last_alert : Option ℚ) (period : ℚ) (category : String)
    (tank_alert : TankAlert) (offer_time : ℚ) :
    Option (String × TankAlert) × Option ℚ :=
  match last_alert with
  | none => (some (category, tank_alert), some offer_time)
  | some la =>
    if offer_time - la > period then (some (category, tank_alert), some offer_time)
    else (none, some la)

/-- Number of alerts handed to the sink over a sequence of
(category, alert, time) offers, threading `last_alert`. -/
def run (period : ℚ) (last_alert : Option ℚ) :
    List (String × TankAlert × ℚ) → ℕ
  | [] => 0
  | (c, a, t) :: rest =>
    let step := offer last_alert period c a t
    (if step.1.isSome then 1 else 0) + run period step.2 rest

end AlertMailer

/-- C4: `AlertMailer.offer` delivers exactly when `last_alert` is `none` or
the time since `last_alert` strictly exceeds the cooldown period, setting
`last_alert` to the current time, and otherwise suppresses the alert leaving
`last_alert` unchanged; the decision never depends on the category, so two
qualifying alerts from different categories at times `t` and `t + P/2` yield
exactly one delivery while alerts at `t` and `t + 2P` yield two (for a
positive cooldown `P`). -/
theorem alertMailer_cooldown (last : Option ℚ) (P now t : ℚ) (c c1 c2 : String)
    (a a1 a2 : TankAlert) (hP : 0 < P) :
    ((AlertMailer.offer last P c a now).1.isSome ↔
      (last = none ∨ ∃ la, last = some la ∧ now - la > P)) ∧
    ((AlertMailer.offer last P c a now).1.isSome →
      AlertMailer.offer last P c a now = (some (c, a), some now)) ∧
    (¬ (AlertMailer.offer last P c a now).1.isSome →
      (AlertMailer.offer last P c a now).1 = none ∧
      (AlertMailer.offer last P c a now).2 = last) ∧
    (∀ c3 : String, (AlertMailer.offer last P c a now).1.isSome =
      (AlertMailer.offer last P c3 a now).1.isSome) ∧
    AlertMailer.run P none [(c1, a1, t), (c2, a2, t + P / 2)] = 1 ∧
    AlertMailer.run P none [(c1, a1, t), (c2, a2, t + 2 * P)] = 2 := by
  refine ⟨?_, ?_, ?_, ?_, ?_, ?_⟩
  · cases last with
    | none => simp [AlertMailer.offer]
    | some la =>
      simp only [AlertMailer.offer]
      split
      · rename_i hgt
        simp only [Option.isSome_some, true_iff]
        exact Or.inr ⟨la, rfl, hgt⟩
      · rename_i hle
        simp only [Option.isSome_none, Bool.false_eq_true, false_iff]
        push_neg
        exact ⟨by simp, fun x hx => by
          rw [Option.some.injEq] at hx
          subst hx
          simpa using hle⟩
  · cases last with
    | none => intro _; rfl
    | some la =>
      simp only [AlertMailer.offer]
      split
      · intro _; rfl
      · intro h; simp at h
  · cases last with
    | none => intro h; simp [AlertMailer.offer] at h
    | some la =>
      simp only [AlertMailer.offer]
      split
      · intro h; simp at h
      · intro _; exact ⟨rfl, rfl⟩
  · intro c3
    cases last with
    | none => rfl
    | some la =>
      simp only [AlertMailer.offer]
      split <;> rfl
  · have h1 : ¬ (P < P / 2) := by linarith
    simp [AlertMailer.run, AlertMailer.offer, h1]
  · have h2 : P < 2 * P := by linarith
    simp [AlertMailer.run, AlertMailer.offer, h2]

/-- Witness for C4 with cooldown 10: alerts from two categories at times 0
and 5 produce one delivery, at times 0 and 20 two deliveries. -/
theorem alertMailer_cooldown_witness :
    AlertMailer.run 10 none
      [("depth", ⟨0, 0, none⟩, 0), ("density", ⟨5, 0, none⟩, 0 + 10 / 2)] = 1 ∧
    AlertMailer.run 10 none
      [("depth", ⟨0, 0, none⟩, 0), ("density", ⟨20, 0, none⟩, 0 + 2 * 10)] = 2 := by
  have h := alertMailer_cooldown none 10 0 0 "depth" "depth" "density"
    ⟨0, 0, none⟩ ⟨0, 0, none⟩ ⟨5, 0, none⟩ (by norm_num)
  have h2 := alertMailer_cooldown none 10 0 0 "depth" "depth" "density"
    ⟨0, 0, none⟩ ⟨0, 0, none⟩ ⟨20, 0, none⟩ (by norm_num)
  exact ⟨h.2.2.2.2.1, h2.2.2.2.2.2⟩

/-! ### EventConnection.notify_all (src/tankmonitor.py lines 90-111)

The method walks the listener set and tries `event_listener.send(...)` on
each inside a bare `try/except`.  The except handler first runs
`log.debug("Removing listener " + event_listener)` — but that expression
concatenates a `str` with an `EventConnection` object, so the handler itself
raises `TypeError` before `failed_listeners.append(event_listener)` is ever
reached: the loop aborts, the remaining listeners are not sent to, the final
`difference` assignment is skipped (so the listener set keeps its old value)
and the `TypeError` propagates to the caller of `notify_all`.  Listeners are
modelled by natural-number identifiers; the outcome of a send is a function
`send : ℕ → Bool` (`true` = the send succeeded, `false` = it raised). -/

namespace EventConnection

/-- The `for` loop of `notify_all`: the listeners sent to so far (in order),
the accumulated `failed_listeners`, and whether the except handler raised
`TypeError` and aborted the loop.  On a failed send the handler raises
before `failed_listeners.append` runs, so the loop stops with the failed
list still empty and the remaining listeners unvisited. -/
def notifyLoop (send : ℕ → Bool) : List ℕ → List ℕ × List ℕ × Bool
  | [] => ([], [], false)
  | l :: ls =>
    if send l then
      let rest := notifyLoop send ls
      (l :: rest.1, rest.2.1, rest.2.2)
    else ([], [], true)

/-- `notify_all`: the messages actually delivered, the listener set after
the call, and the error surfaced to the caller, when there is one.  The
`difference` assignment runs only when the loop finished without raising;
on a raise the set keeps its previous value. -/
def notify_all (send : ℕ → Bool) (event_listeners : List ℕ) :
    List ℕ × List ℕ × Option String :=
  let pass := notifyLoop send event_listeners
  if pass.2.2 then
    (pass.1, event_listeners,
     some "TypeError: can only concatenate str (not EventConnection) to str")
  else
    (pass.1, event_listeners.filter (fun l => decide (l ∉ pass.2.1)), none)

end EventConnection

/-- C9: evaluating the code where one send fails.  With listeners 5 and 7
and a send that raises for 5 and succeeds for 7: iterating as [5, 7],
nothing at all is delivered (listener 7 is affected by the failure of
listener 5), the listener set is unchanged (listener 5 is not removed), and
a `TypeError` surfaces to the caller of `notify_all`; iterating as [7, 5]
the same happens after 7 received its one message.  The except handler
evaluates a `str`-plus-object concatenation which itself raises `TypeError`
before the failed listener can be recorded, contradicting the docstring of
`notify_all`, which promises the failed listener is logged and removed while
the others are unaffected. -/
theorem notify_all_failure_aborts :
    (EventConnection.notify_all (fun l => decide (l ≠ 5)) [5, 7] =
      ([], [5, 7],
       some "TypeError: can only concatenate str (not EventConnection) to str")) ∧
    (EventConnection.notify_all (fun l => decide (l ≠ 5)) [7, 5] =
      ([7], [7, 5],
       some "TypeError: can only concatenate str (not EventConnection) to str")) := by
  constructor <;> rfl

/-! ### Unknown-category handling (src/tankmonitor.py)

`TankMonitor._offer_log_record` (lines 355-382) runs the level-alert checks
(which compare `category` with the literals used in `ALERT_THRESHOLDS`) and
then iterates `for logger in self.loggers[category]`; for a category that is
not a key of the `loggers` dict this subscript raises `KeyError`, surfaced to
the caller.  `LogDownloadHandler.get` (lines 146-158) subscripts
`loggers[category]` the same way and additionally raises when no logger
matches the requested interval.  The dict is modelled as an association
list, a raised exception as `Except.error`; side effects that precede the
raise (mailing a level alert for a known-category value) are returned in the
success case only.  Thresholds 10000.0 and 1.005 are from settings.py. -/

/-- `TankMonitor._offer_log_record`: on success, the updated loggers for the
category together with the alerts handed to `AlertMailer.offer` (the level
alert first, then one per logger that returned an alert). -/
def offer_log_record (loggers : List (String × List TankLogger))
    (category : String) (timestamp value : ℚ) :
    Except String (List TankLogger × List TankAlert) :=
  let log_record : TankLogRecord := ⟨timestamp, value⟩
  let levelAlerts : List TankAlert :=
    if category = "depth" ∧ value < 10000 then [⟨timestamp, value, none⟩]
    else if category = "density" ∧ value > 201 / 200 then [⟨timestamp, value, none⟩]
    else []
  match loggers.lookup category with
  | none => .error ("KeyError: " ++ category)
  | some ls =>
    let stepped := ls.map (fun l => l.offer log_record)
    .ok (stepped.map Prod.fst, levelAlerts ++ stepped.filterMap Prod.snd)

/-- `LogDownloadHandler.get`: returns the records (or derived deltas) of the
first logger of the category with the requested interval. -/
def log_download_get (loggers : List (String × List TankLogger))
    (category : String) (logger_interval : ℚ) (want_deltas : Bool) :
    Except String (List TankLogRecord) :=
  match loggers.lookup category with
  | none => .error ("KeyError: " ++ category)
  | some ls =>
    match ls.filter (fun l => decide (l.log_interval = logger_interval)) with
    | [] => .error "No logger matching"
    | l :: _ => .ok (if want_deltas then l.deltas else l.records)

/-- C10: a category with no configured loggers makes both the ingestion path
and the history query surface an explicit failure to the caller, while a
too-frequent sample is silently dropped (the offer succeeds, changes nothing
and returns no alert). -/
theorem unknown_category_fails (loggers : List (String × List TankLogger))
    (category : String) (timestamp value logger_interval : ℚ) (want_deltas : Bool)
    (h : loggers.lookup category = none) :
    offer_log_record loggers category timestamp value =
      .error ("KeyError: " ++ category) ∧
    log_download_get loggers category logger_interval want_deltas =
      .error ("KeyError: " ++ category) ∧
    (∀ tl : TankLogger, ∀ r : TankLogRecord,
      ¬ r.timestamp > tl.next_capture → tl.offer r = (tl, none)) := by
  refine ⟨?_, ?_, ?_⟩
  · unfold offer_log_record
    rw [h]
  · unfold log_download_get
    rw [h]
  · intro tl r hrej
    unfold TankLogger.offer
    rw [if_neg hrej]

/-- Witness for C10: an empty registry rejects the category "bogus" on both
paths, while a fresh logger silently drops a sample at timestamp 0. -/
theorem unknown_category_fails_witness :
    offer_log_record [] "bogus" 1 2 = .error ("KeyError: " ++ "bogus") ∧
    log_download_get [] "bogus" 60 false = .error ("KeyError: " ++ "bogus") ∧
    (TankLogger.init 60 3 none defaultComparator).offer ⟨0, 5⟩ =
      (TankLogger.init 60 3 none defaultComparator, none) := by
  have h := unknown_category_fails [] "bogus" 1 2 60 false rfl
  exact ⟨h.1, h.2.1,
    h.2.2 (TankLogger.init 60 3 none defaultComparator) ⟨0, 5⟩ (by simp [TankLogger.init])⟩

end TankMonitor
